import Mathlib

/-!
Verification model of the `quickload` configuration loader
(`src/lib/config-loader.ts` and `src/lib/env.checker.ts`).

The embedding translates the loader's data model and operations into
executable Lean definitions: JSON-like configuration trees, the deep merge
`mergeConfigs`, the filesystem pipeline (`loadFile`, `loadConfigFiles`,
`loadAndMergeConfigs`), schema validation (`validateConfig`), and the
orchestrating `load`. Filesystem behaviour is a parameter (`FS`), the
execution context (server vs browser, module availability) is a parameter
(`Ctx`), and every operation additionally reports the list of observable
effects it performed (directory listings, file reads, schema compilations),
so the theorems can speak about what I/O a call did or did not do.
-/

namespace Quickload

mutual
/-- Configuration tree values, mirroring the JavaScript runtime values a
parsed JSON configuration can hold, plus `undef` for JavaScript's
`undefined` (which `mergeConfigs` treats specially at
`src/lib/config-loader.ts:306`). Objects are insertion-ordered key/value
lists, as JavaScript objects are for string keys; the list types are part
of the mutual family so that the merge recursion is structural. -/
inductive ConfigVal where
  | str (s : String)
  | num (n : Int)
  | bool (b : Bool)
  | null
  | undef
  | arr (elems : ConfigList)
  | obj (fields : Cfg)

/-- An ordered sequence of configuration values (a JSON array). -/
inductive ConfigList where
  | nil
  | cons (v : ConfigVal) (rest : ConfigList)

/-- A configuration object: the insertion-ordered field list of a JavaScript
object (`DeepPartial<T>` in the source). `Cfg.nil` is the empty object. -/
inductive Cfg where
  | nil
  | cons (key : String) (v : ConfigVal) (rest : Cfg)
end

/-- The keys of a configuration object, in order. -/
def Cfg.keys : Cfg → List String
  | .nil => []
  | .cons k _ rest => k :: Cfg.keys rest

/-- Property read `o[key]`: the value at the first matching key, `none` when
the key is absent (JavaScript objects have unique keys, so first = only). -/
def lookupVal : Cfg → String → Option ConfigVal
  | .nil, _ => none
  | .cons k v rest, key => if k = key then some v else lookupVal rest key

/-- Spread-update `{...o, [key]: v}`: replaces the value at an existing key
in place (keeping its position) or appends a fresh key at the end, exactly
the JavaScript property-order semantics used in `mergeConfigs`. -/
def setKey : Cfg → String → ConfigVal → Cfg
  | .nil, key, v => .cons key v .nil
  | .cons k w rest, key, v =>
      if k = key then .cons k v rest else .cons k w (setKey rest key v)

/-- Type guard `isConfigObject` (`src/lib/config-loader.ts:322`):
`typeof value === 'object' && value !== null && !Array.isArray(value)`.
Only mapping nodes qualify; `null`, arrays, scalars and `undefined` do not. -/
def isConfigObject : ConfigVal → Bool
  | .obj _ => true
  | _ => false

/-- Deep merge `mergeConfigs` (`src/lib/config-loader.ts:286`):
`Object.entries(source)` is folded left-to-right over a shallow copy of
`target`; when both the incoming and the existing value are mapping nodes
they are merged recursively, an incoming `undefined` is skipped, and any
other incoming value overwrites the slot wholesale. -/
def mergeConfigs : Cfg → Cfg → Cfg
  | target, .nil => target
  | target, .cons key (.obj sfields) rest =>
      (match lookupVal target key with
       | some (.obj tfields) =>
           mergeConfigs (setKey target key (.obj (mergeConfigs tfields sfields))) rest
       | _ => mergeConfigs (setKey target key (.obj sfields)) rest)
  | target, .cons _ .undef rest => mergeConfigs target rest
  | target, .cons key sv rest => mergeConfigs (setKey target key sv) rest

/-- One iteration of the `Object.entries(source).reduce` body of
`mergeConfigs`, as a standalone function for the lemmas about it. -/
def mergeStep (target : Cfg) (key : String) (sv : ConfigVal) : Cfg :=
  match sv, lookupVal target key with
  | .obj sfields, some (.obj tfields) =>
      setKey target key (.obj (mergeConfigs tfields sfields))
  | .undef, _ => target
  | _, _ => setKey target key sv

/-- The spec's per-key description of the merge (§4.3 / the Merge right-bias
property): recursive merge when both sides hold mapping nodes, otherwise
the source value unless it is absent or `undefined`, otherwise the target
value. Written from the spec's words, to be compared with the code-derived
`mergeConfigs`. -/
def mergeSpecAt (A B : Cfg) (k : String) : Option ConfigVal :=
  match lookupVal B k with
  | none => lookupVal A k
  | some sv =>
      match sv, lookupVal A k with
      | .obj sfields, some (.obj tfields) => some (.obj (mergeConfigs tfields sfields))
      | .undef, _ => lookupVal A k
      | _, _ => some sv

/-- Error codes of the `ConfigErrorCode` enum
(`src/lib/config-loader.ts:122`). -/
inductive ConfigErrorCode where
  | INVALID_SCHEMA
  | FILE_NOT_FOUND
  | PARSE_ERROR
  | VALIDATION_ERROR
  | MERGE_ERROR
  | LOAD_ERROR
  | FILE_READ_ERROR
  | DIR_READ_ERROR
deriving DecidableEq, Repr

/-- String value of a `ConfigErrorCode` member (the enum is string-valued in
the source, so `error.code === 'ENOENT'` compares these strings). -/
def ConfigErrorCode.toStr : ConfigErrorCode → String
  | .INVALID_SCHEMA => "INVALID_SCHEMA"
  | .FILE_NOT_FOUND => "FILE_NOT_FOUND"
  | .PARSE_ERROR => "PARSE_ERROR"
  | .VALIDATION_ERROR => "VALIDATION_ERROR"
  | .MERGE_ERROR => "MERGE_ERROR"
  | .LOAD_ERROR => "LOAD_ERROR"
  | .FILE_READ_ERROR => "FILE_READ_ERROR"
  | .DIR_READ_ERROR => "DIR_READ_ERROR"

/-- Raw failures coming from outside the loader: Node.js errors carrying a
`code` property (such as ENOENT or EACCES from `fs`), plain `Error` values
without one (such as Ajv's schema-compilation error), and thrown values
that are not `Error` instances at all. -/
inductive RawErr where
  | node (code : String)
  | plainError (desc : String)
  | nonError
deriving DecidableEq, Repr

/-- A thrown JavaScript value as the loader's catch blocks can observe it:
a raw outside failure, a `SyntaxError` from `JSON.parse`, or a
`ConfigurationError` (`src/lib/config-loader.ts:142`) with its message,
`code`, optional wrapped cause (the `errors` payload) and, for validation
failures, the list of violated constraints (`validate.errors`). -/
inductive JsErr where
  | raw (r : RawErr)
  | parseFail
  | configErr (msg : String) (code : ConfigErrorCode) (cause : Option JsErr)
      (violationList : List String)

/-- The `instanceof Error` test: `ConfigurationError`, Node errors, plain
errors and `SyntaxError` all extend `Error`; a thrown non-Error does not. -/
def JsErr.isError : JsErr → Bool
  | .raw .nonError => false
  | _ => true

/-- The `.code` property read by `loadConfigFiles`' catch: Node errors carry
their syscall code, a `ConfigurationError` carries its string-valued enum
member, everything else has no `code`. -/
def JsErr.codeStr : JsErr → Option String
  | .raw (.node c) => some c
  | .configErr _ code _ _ => some code.toStr
  | _ => none

/-- The `instanceof ConfigurationError` test used by `load`'s catch. -/
def JsErr.isConfigErr : JsErr → Bool
  | .configErr _ _ _ _ => true
  | _ => false

/-- The `code` of a thrown `ConfigurationError`, `none` for anything else. -/
def JsErr.topCode : JsErr → Option ConfigErrorCode
  | .configErr _ code _ _ => some code
  | _ => none

/-- The `code` of the `ConfigurationError` a result failed with:
`none` when the result is a success or the failure is not a
`ConfigurationError`. -/
def errorCodeOf (r : Except JsErr Cfg) : Option ConfigErrorCode :=
  match r with
  | .ok _ => none
  | .error e => e.topCode

/-- Whether a thrown value is, or wraps at any depth, a
`ConfigurationError` with the given code. -/
def JsErr.mentionsCode : JsErr → ConfigErrorCode → Bool
  | .configErr _ c cause _, target =>
      c = target ||
        (match cause with
         | some e => JsErr.mentionsCode e target
         | none => false)
  | _, _ => false

/-- Observable effects of one loader operation: a `fs.readdir`, a
`fs.readFile`, or an `ajv.compile` of the schema. -/
inductive Effect where
  | dirRead (path : String)
  | fileRead (path : String)
  | compileSchema
deriving DecidableEq, Repr

/-- Number of filesystem accesses (directory listings plus file reads) in an
effect trace. -/
def fsAccessCount (effs : List Effect) : Nat :=
  (effs.filter (fun e =>
    match e with
    | .dirRead _ => true
    | .fileRead _ => true
    | .compileSchema => false)).length

/-- Number of schema compilations in an effect trace. -/
def compileCount (effs : List Effect) : Nat :=
  (effs.filter (fun e =>
    match e with
    | .compileSchema => true
    | _ => false)).length

/-- Execution context of one run: whether `isSSR()` reports a server context
(`src/lib/env.checker.ts`, `typeof window === 'undefined'`), whether
`typeof process` is defined (the only condition under which
`loadServerModules` reports failure, `src/lib/config-loader.ts:39`), and
whether the dynamic `fs/promises` and `path` imports produced modules
(`fsPromises` / `pathModule` non-null). -/
structure Ctx where
  ssr : Bool
  hasProcess : Bool
  fsAvail : Bool
  pathAvail : Bool
deriving DecidableEq, Repr

/-- Outcome of `fs.readFile` followed by `JSON.parse` on one path: a parsed
configuration object, a read failure, or content that is not valid JSON. -/
inductive FileOutcome where
  | ok (cfg : Cfg)
  | readErr (r : RawErr)
  | parseErr

/-- The filesystem as the loader observes it: what `fs.readdir` returns for
each directory path and what reading-and-parsing returns for each file
path. -/
structure FS where
  dirs : String → Except RawErr (List String)
  files : String → FileOutcome

/-- The `path.join` of the two path segments the loader joins. -/
def pathJoin (a b : String) : String := a ++ "/" ++ b

/-- Kernel-computable translation of JavaScript's
`fileName.endsWith(suffix)`, used by the `*.json` filter at
`src/lib/config-loader.ts:252`. -/
def strEndsWith (s suff : String) : Bool :=
  s.data.reverse.take suff.data.length == suff.data.reverse

namespace ConfigLoader

/-- Loader options after the constructor applied defaults
(`src/lib/config-loader.ts:170`): `configDir` defaults to `"config"`,
`cache` to `false`, `defaultEnv` to `"development"`. The schema is modelled
separately (see `SchemaModel`). -/
structure Options where
  configDir : String
  cache : Bool
  defaultEnv : String
  includeBaseConfig : Bool

/-- `loadFile` (`src/lib/config-loader.ts:222`): outside a server context or
without `fs/promises` it returns `{}` touching nothing; otherwise it reads
and parses the file, wrapping any caught `Error` (read failure or
`SyntaxError`) as FILE_READ_ERROR and rethrowing a non-Error as is. -/
def loadFile (ctx : Ctx) (fs : FS) (filePath : String) :
    Except JsErr Cfg × List Effect :=
  if !ctx.ssr || !ctx.fsAvail then (.ok .nil, [])
  else
    match fs.files filePath with
    | .ok cfg => (.ok cfg, [.fileRead filePath])
    | .readErr r =>
        (if (JsErr.raw r).isError then
           .error (.configErr ("Failed to load file: " ++ filePath)
             .FILE_READ_ERROR (some (.raw r)) [])
         else .error (.raw r), [.fileRead filePath])
    | .parseErr =>
        (.error (.configErr ("Failed to load file: " ++ filePath)
          .FILE_READ_ERROR (some .parseFail) []), [.fileRead filePath])

/-- The catch block of `loadConfigFiles` (`src/lib/config-loader.ts:268`):
an `Error` whose `code` is `'ENOENT'` yields the empty configuration, any
other caught value is wrapped as DIR_READ_ERROR. It receives both `readdir`
failures and errors propagated out of the per-file loads. -/
def dirCatch (dirPath : String) (e : JsErr) : Except JsErr Cfg :=
  if e.isError && e.codeStr == some "ENOENT" then .ok .nil
  else
    .error (.configErr ("Failed to load config files from directory: " ++ dirPath)
      .DIR_READ_ERROR (some e) [])

/-- First rejection among the per-file results, as `Promise.all` delivers
one rejection to the caller. -/
def firstErr : List (Except JsErr Cfg) → Option JsErr
  | [] => none
  | .error e :: _ => some e
  | .ok _ :: rest => firstErr rest

/-- The successfully parsed configurations of a result list, in order. -/
def okConfigs : List (Except JsErr Cfg) → List Cfg
  | [] => []
  | .ok c :: rest => c :: okConfigs rest
  | .error _ :: rest => okConfigs rest

/-- `loadConfigFiles` (`src/lib/config-loader.ts:245`): guards on context and
module availability, lists the directory, filters to `*.json`, loads every
file (all reads are started by `Promise.all`, so their effects occur even
when one fails), and either folds the parsed objects with `mergeConfigs`
from `{}` or runs the shared catch block on the first failure. -/
def loadConfigFiles (ctx : Ctx) (fs : FS) (dirPath : String) :
    Except JsErr Cfg × List Effect :=
  if !ctx.ssr || !ctx.fsAvail || !ctx.pathAvail then (.ok .nil, [])
  else
    match fs.dirs dirPath with
    | .error r => (dirCatch dirPath (.raw r), [.dirRead dirPath])
    | .ok names =>
        let jsonFiles := names.filter (fun n => strEndsWith n ".json")
        let results := jsonFiles.map (fun n => (loadFile ctx fs (pathJoin dirPath n)).1)
        let effs := .dirRead dirPath ::
          (jsonFiles.map (fun n => (loadFile ctx fs (pathJoin dirPath n)).2)).flatten
        match firstErr results with
        | some e => (dirCatch dirPath e, effs)
        | none => (.ok ((okConfigs results).foldl mergeConfigs .nil), effs)

/-- `loadAndMergeConfigs` (`src/lib/config-loader.ts:329`): without the
`path` module it returns `{}`; otherwise it aggregates
`configDir/default` and `configDir/<env>` (both started concurrently, so
both effect traces occur) and merges default-then-environment. -/
def loadAndMergeConfigs (opts : Options) (ctx : Ctx) (fs : FS) (env : String) :
    Except JsErr Cfg × List Effect :=
  if !ctx.pathAvail then (.ok .nil, [])
  else
    let d := loadConfigFiles ctx fs (pathJoin opts.configDir "default")
    let e := loadConfigFiles ctx fs (pathJoin opts.configDir env)
    (match d.1, e.1 with
     | .error err, _ => .error err
     | .ok _, .error err => .error err
     | .ok dc, .ok ec => .ok (mergeConfigs dc ec), d.2 ++ e.2)

/-- Modelled from the spec: the Ajv dependency is not part of `src/`, so the
schema engine is modelled after the spec's description of it. A declared
schema is either malformed, or a well-formed list of independently named
constraints on the merged document. -/
inductive SchemaModel where
  | malformed
  | wellFormed (constraints : List (String × (Cfg → Bool)))

/-- Names of the constraints a configuration violates, in schema order. -/
def violationsOf (cs : List (String × (Cfg → Bool))) (cfg : Cfg) : List String :=
  (cs.filter (fun c => !(c.2 cfg))).map Prod.fst

/-- Modelled from the spec: `ajv.compile(schema)` with `allErrors: true`
(constructor options, `src/lib/config-loader.ts:178`). Compiling a
malformed schema throws a plain `Error` (not a `ConfigurationError`); a
well-formed schema compiles to a validator that collects every violation,
not just the first. -/
def compileSchema : SchemaModel → Except JsErr (Cfg → List String)
  | .malformed => .error (.raw (.plainError "ajv schema compilation failed"))
  | .wellFormed cs => .ok (violationsOf cs)

/-- `validateConfig` (`src/lib/config-loader.ts:348`): compiles the schema
(on every call — one `compileSchema` effect each time), then either returns
the configuration or throws VALIDATION_ERROR carrying `validate.errors`,
the complete violation list. -/
def validateConfig (schema : SchemaModel) (cfg : Cfg) :
    Except JsErr Cfg × List Effect :=
  match compileSchema schema with
  | .error e => (.error e, [.compileSchema])
  | .ok validate =>
      ((if validate cfg = [] then .ok cfg
        else
          .error (.configErr "Configuration validation failed"
            .VALIDATION_ERROR none (validate cfg))), [.compileSchema])

/-- The `ConfigLoader` constructor (`src/lib/config-loader.ts:169`): fills in
option defaults and creates the Ajv instance. It never calls
`ajv.compile`, so it performs no `compileSchema` effect and succeeds for
every schema, malformed ones included; the effect trace it produces is
empty. -/
def construct (configDir : Option String) (cache : Option Bool)
    (defaultEnv : Option String) (includeBaseConfig : Option Bool) :
    Options × List Effect :=
  (⟨configDir.getD "config", cache.getD false, defaultEnv.getD "development",
    includeBaseConfig.getD false⟩, [])

/-- The process-wide `configCache` map (`src/lib/config-loader.ts:158`),
modelled as an association list from cache key to stored configuration. -/
abbrev Cache := List (String × Cfg)

/-- `load` (`src/lib/config-loader.ts:190`): resolves the environment from
`process.env.NODE_ENV` with `options.defaultEnv` as fallback; outside a
server context, or when `loadServerModules` reports no `process`, it
validates the empty configuration (outside the try block, so errors
propagate raw); otherwise it runs `loadAndMergeConfigs` and
`validateConfig` inside a try whose catch rethrows a `ConfigurationError`
unchanged and wraps anything else as LOAD_ERROR. The source never reads or
writes `configCache` inside `load`, so the cache is returned untouched on
every path. -/
def load (opts : Options) (schema : SchemaModel) (ctx : Ctx) (fs : FS)
    (nodeEnv : Option String) (cache : Cache) :
    Except JsErr Cfg × Cache × List Effect :=
  let env := nodeEnv.getD opts.defaultEnv
  if !ctx.ssr then
    let v := validateConfig schema .nil
    (v.1, cache, v.2)
  else if !ctx.hasProcess then
    let v := validateConfig schema .nil
    (v.1, cache, v.2)
  else
    let lm := loadAndMergeConfigs opts ctx fs env
    match lm.1 with
    | .ok cfg =>
        let v := validateConfig schema cfg
        (match v.1 with
         | .ok c => .ok c
         | .error e =>
             .error (if e.isConfigErr then e
               else .configErr "Failed to load configuration" .LOAD_ERROR (some e) []),
         cache, lm.2 ++ v.2)
    | .error e =>
        (.error (if e.isConfigErr then e
           else .configErr "Failed to load configuration" .LOAD_ERROR (some e) []),
         cache, lm.2)

end ConfigLoader

/-! ### Association-list and merge lemmas -/

/-- Spine induction for configuration objects: the recursion pattern of all
the association-list lemmas below. -/
theorem Cfg.spineInduction {P : Cfg → Prop} (hnil : P .nil)
    (hcons : ∀ k v rest, P rest → P (.cons k v rest)) : ∀ c, P c
  | .nil => hnil
  | .cons k v rest => hcons k v rest (Cfg.spineInduction hnil hcons rest)

theorem lookupVal_setKey_self (m : Cfg) (k : String) (v : ConfigVal) :
    lookupVal (setKey m k v) k = some v := by
  induction m using Cfg.spineInduction with
  | hnil => simp [setKey, lookupVal]
  | hcons k' w rest ih =>
      by_cases h : k' = k
      · simp [setKey, h, lookupVal]
      · simp [setKey, h, lookupVal, ih]

theorem lookupVal_setKey_ne (m : Cfg) (k' k : String) (v : ConfigVal) (h : k' ≠ k) :
    lookupVal (setKey m k' v) k = lookupVal m k := by
  induction m using Cfg.spineInduction with
  | hnil => simp [setKey, lookupVal, h]
  | hcons k0 w rest ih =>
      by_cases h0 : k0 = k'
      · subst h0; simp [setKey, lookupVal, h]
      · simp [setKey, h0, lookupVal, ih]

theorem lookupVal_eq_none (m : Cfg) (k : String) (h : k ∉ m.keys) :
    lookupVal m k = none := by
  induction m using Cfg.spineInduction with
  | hnil => simp [lookupVal]
  | hcons k' v rest ih =>
      simp [Cfg.keys] at h
      rw [lookupVal]
      simp [Ne.symm h.1, ih h.2]

theorem mergeConfigs_cons (target : Cfg) (key : String) (sv : ConfigVal) (rest : Cfg) :
    mergeConfigs target (.cons key sv rest) =
      mergeConfigs (mergeStep target key sv) rest := by
  cases sv with
  | obj sfields =>
      cases h : lookupVal target key with
      | none => simp [mergeConfigs, mergeStep, h]
      | some v => cases v <;> simp [mergeConfigs, mergeStep, h]
  | _ => simp [mergeConfigs, mergeStep]

theorem lookupVal_mergeStep_ne (target : Cfg) (key k : String) (sv : ConfigVal)
    (h : key ≠ k) : lookupVal (mergeStep target key sv) k = lookupVal target k := by
  cases sv with
  | obj sfields =>
      cases hl : lookupVal target key with
      | none => simp [mergeStep, hl, lookupVal_setKey_ne _ _ _ _ h]
      | some v => cases v <;> simp [mergeStep, hl, lookupVal_setKey_ne _ _ _ _ h]
  | undef => simp [mergeStep]
  | _ => simp [mergeStep, lookupVal_setKey_ne _ _ _ _ h]

theorem lookupVal_mergeConfigs_of_none (A B : Cfg) (k : String)
    (h : lookupVal B k = none) :
    lookupVal (mergeConfigs A B) k = lookupVal A k := by
  induction B using Cfg.spineInduction generalizing A with
  | hnil => simp [mergeConfigs]
  | hcons key sv rest ih =>
      rw [lookupVal] at h
      by_cases hk : key = k
      · simp [hk] at h
      · simp [hk] at h
        rw [mergeConfigs_cons, ih _ h, lookupVal_mergeStep_ne _ _ _ _ hk]

theorem mergeSpecAt_congr (A A' B : Cfg) (k : String)
    (h : lookupVal A k = lookupVal A' k) : mergeSpecAt A B k = mergeSpecAt A' B k := by
  unfold mergeSpecAt
  rw [h]

/-- Per-key agreement of `mergeConfigs` with the spec's clause, for any
source object with JavaScript-legal (duplicate-free) keys. -/
theorem lookupVal_mergeConfigs (A B : Cfg) (k : String) (hB : B.keys.Nodup) :
    lookupVal (mergeConfigs A B) k = mergeSpecAt A B k := by
  induction B using Cfg.spineInduction generalizing A with
  | hnil => simp [mergeConfigs, mergeSpecAt, lookupVal]
  | hcons key sv rest ih =>
      simp only [Cfg.keys, List.nodup_cons] at hB
      rw [mergeConfigs_cons]
      by_cases hk : key = k
      · subst hk
        have hrest : lookupVal rest key = none := lookupVal_eq_none _ _ hB.1
        rw [lookupVal_mergeConfigs_of_none _ _ _ hrest]
        cases sv with
        | obj sfields =>
            cases hl : lookupVal A key with
            | none => simp [mergeStep, hl, mergeSpecAt, lookupVal, lookupVal_setKey_self]
            | some v =>
                cases v <;>
                  simp [mergeStep, hl, mergeSpecAt, lookupVal, lookupVal_setKey_self]
        | undef => simp [mergeStep, mergeSpecAt, lookupVal]
        | _ => simp [mergeStep, mergeSpecAt, lookupVal, lookupVal_setKey_self]
      · rw [ih _ hB.2]
        rw [mergeSpecAt_congr _ A _ _ (lookupVal_mergeStep_ne _ _ _ _ hk)]
        unfold mergeSpecAt
        rw [lookupVal]
        simp [hk]

/-! ### Pipeline lemmas -/

namespace ConfigLoader

theorem loadFile_err_no_merge (ctx : Ctx) (fs : FS) (p : String) (e : JsErr)
    (h : (loadFile ctx fs p).1 = .error e) :
    e.mentionsCode .MERGE_ERROR = false := by
  cases hS : ctx.ssr <;> cases hF : ctx.fsAvail <;> simp [loadFile, hS, hF] at h
  cases hf : fs.files p with
  | ok cfg => simp [hf] at h
  | readErr r =>
      cases r <;> simp [hf, JsErr.isError] at h <;>
        (subst h; simp [JsErr.mentionsCode])
  | parseErr =>
      simp [hf] at h
      subst h
      simp [JsErr.mentionsCode]

theorem firstErr_mem (l : List (Except JsErr Cfg)) (e : JsErr)
    (h : firstErr l = some e) : Except.error e ∈ l := by
  induction l with
  | nil => simp [firstErr] at h
  | cons x rest ih =>
      cases x with
      | ok c =>
          rw [firstErr] at h
          exact List.mem_cons_of_mem _ (ih h)
      | error e' =>
          rw [firstErr] at h
          simp at h
          subst h
          exact List.mem_cons_self _ _

theorem loadConfigFiles_guard_skip (ctx : Ctx) (fs : FS) (dirPath : String)
    (hg : (!ctx.ssr || !ctx.fsAvail || !ctx.pathAvail) = true) :
    loadConfigFiles ctx fs dirPath = (.ok .nil, []) := by
  rw [loadConfigFiles, if_pos hg]

theorem loadConfigFiles_ok_listing (ctx : Ctx) (fs : FS) (dirPath : String)
    (names : List String)
    (hS : ctx.ssr = true) (hF : ctx.fsAvail = true) (hP : ctx.pathAvail = true)
    (hd : fs.dirs dirPath = .ok names) :
    (loadConfigFiles ctx fs dirPath).1 =
      (match firstErr ((names.filter (fun n => strEndsWith n ".json")).map
          (fun n => (loadFile ctx fs (pathJoin dirPath n)).1)) with
      | some e => dirCatch dirPath e
      | none => .ok ((okConfigs ((names.filter (fun n => strEndsWith n ".json")).map
          (fun n => (loadFile ctx fs (pathJoin dirPath n)).1))).foldl mergeConfigs .nil)) := by
  simp only [loadConfigFiles, hd]
  rw [if_neg (by simp [hS, hF, hP])]
  split
  · rfl
  · rfl

theorem loadConfigFiles_err_no_merge (ctx : Ctx) (fs : FS) (dirPath : String) (e : JsErr)
    (h : (loadConfigFiles ctx fs dirPath).1 = .error e) :
    e.mentionsCode .MERGE_ERROR = false := by
  by_cases hg : (!ctx.ssr || !ctx.fsAvail || !ctx.pathAvail) = true
  · rw [loadConfigFiles_guard_skip ctx fs dirPath hg] at h
    exact absurd h (by simp)
  · simp only [Bool.or_eq_true, Bool.not_eq_true', not_or, Bool.not_eq_false] at hg
    obtain ⟨⟨hS, hF⟩, hP⟩ := hg
    cases hd : fs.dirs dirPath with
    | error r =>
        rw [loadConfigFiles] at h
        rw [if_neg (by simp [hS, hF, hP]), hd] at h
        replace h : dirCatch dirPath (.raw r) = .error e := h
        rw [dirCatch] at h
        by_cases hc : ((JsErr.raw r).isError && (JsErr.raw r).codeStr == some "ENOENT") = true
        · rw [if_pos hc] at h
          exact absurd h (by simp)
        · rw [if_neg hc] at h
          injection h with h'
          subst h'
          cases r <;> simp [JsErr.mentionsCode]
    | ok names =>
        rw [loadConfigFiles_ok_listing ctx fs dirPath names hS hF hP hd] at h
        rcases hfe : firstErr ((names.filter (fun n => strEndsWith n ".json")).map
            (fun n => (loadFile ctx fs (pathJoin dirPath n)).1)) with _ | e'
        · rw [hfe] at h
          exact Except.noConfusion h
        · rw [hfe] at h
          replace h : dirCatch dirPath e' = .error e := h
          have hmem := firstErr_mem _ _ hfe
          rw [List.mem_map] at hmem
          obtain ⟨n, _, hn⟩ := hmem
          have he' : e'.mentionsCode .MERGE_ERROR = false :=
            loadFile_err_no_merge ctx fs (pathJoin dirPath n) e' hn
          rw [dirCatch] at h
          by_cases hc : (e'.isError && e'.codeStr == some "ENOENT") = true
          · rw [if_pos hc] at h
            exact absurd h (by simp)
          · rw [if_neg hc] at h
            injection h with h'
            subst h'
            simp [JsErr.mentionsCode, he']

theorem loadAndMergeConfigs_err_no_merge (opts : Options) (ctx : Ctx) (fs : FS)
    (env : String) (e : JsErr)
    (h : (loadAndMergeConfigs opts ctx fs env).1 = .error e) :
    e.mentionsCode .MERGE_ERROR = false := by
  rw [loadAndMergeConfigs] at h
  by_cases hp : (!ctx.pathAvail) = true
  · rw [if_pos hp] at h
    exact Except.noConfusion h
  · rw [if_neg hp] at h
    replace h :
        (match (loadConfigFiles ctx fs (pathJoin opts.configDir "default")).1,
            (loadConfigFiles ctx fs (pathJoin opts.configDir env)).1 with
          | .error err, _ => Except.error err
          | .ok _, .error err => Except.error err
          | .ok dc, .ok ec => Except.ok (mergeConfigs dc ec)) = .error e := h
    rcases hd : (loadConfigFiles ctx fs (pathJoin opts.configDir "default")).1 with ed | dc
    · rw [hd] at h
      replace h : Except.error (ε := JsErr) (α := Cfg) ed = .error e := h
      injection h with h'
      subst h'
      exact loadConfigFiles_err_no_merge ctx fs _ _ hd
    · rcases he : (loadConfigFiles ctx fs (pathJoin opts.configDir env)).1 with ee | ec
      · rw [hd, he] at h
        replace h : Except.error (ε := JsErr) (α := Cfg) ee = .error e := h
        injection h with h'
        subst h'
        exact loadConfigFiles_err_no_merge ctx fs _ _ he
      · rw [hd, he] at h
        exact Except.noConfusion h

theorem validateConfig_err_no_merge (schema : SchemaModel) (cfg : Cfg) (e : JsErr)
    (h : (validateConfig schema cfg).1 = .error e) :
    e.mentionsCode .MERGE_ERROR = false := by
  cases schema with
  | malformed =>
      simp [validateConfig, compileSchema] at h
      subst h
      simp [JsErr.mentionsCode]
  | wellFormed cs =>
      rw [validateConfig] at h
      replace h :
          (if violationsOf cs cfg = [] then Except.ok cfg
           else Except.error (.configErr "Configuration validation failed"
             .VALIDATION_ERROR none (violationsOf cs cfg))) = .error e := h
      by_cases hv : violationsOf cs cfg = []
      · rw [if_pos hv] at h
        exact Except.noConfusion h
      · rw [if_neg hv] at h
        injection h with h'
        subst h'
        simp [JsErr.mentionsCode]

/-- Claim C9: `mergeConfigs` is a total function (it is defined here as a
total Lean function translated from the source, which contains no `throw`),
and no operation of the loader ever produces an error tagged MERGE_ERROR:
every failing `load`, over every filesystem, context, schema and cache,
returns an error that neither is nor wraps a MERGE_ERROR — the tag is
declared but unreachable. -/
theorem load_never_merge_error (opts : Options) (schema : SchemaModel) (ctx : Ctx)
    (fs : FS) (nodeEnv : Option String) (cache : Cache) (e : JsErr)
    (h : (load opts schema ctx fs nodeEnv cache).1 = .error e) :
    e.mentionsCode .MERGE_ERROR = false := by
  simp only [load] at h
  by_cases hS : (!ctx.ssr) = true
  · rw [if_pos hS] at h
    exact validateConfig_err_no_merge schema .nil e h
  · rw [if_neg hS] at h
    by_cases hPr : (!ctx.hasProcess) = true
    · rw [if_pos hPr] at h
      exact validateConfig_err_no_merge schema .nil e h
    · rw [if_neg hPr] at h
      rcases hlm : (loadAndMergeConfigs opts ctx fs (nodeEnv.getD opts.defaultEnv)).1
        with elm | cfg
      · rw [hlm] at h
        replace h : (Except.error (ε := JsErr) (α := Cfg) (if elm.isConfigErr then elm
            else .configErr "Failed to load configuration" .LOAD_ERROR (some elm) [])) =
            .error e := h
        injection h with h'
        have helm := loadAndMergeConfigs_err_no_merge opts ctx fs _ elm hlm
        by_cases hic : elm.isConfigErr = true
        · rw [if_pos hic] at h'
          subst h'
          exact helm
        · rw [if_neg hic] at h'
          subst h'
          simp [JsErr.mentionsCode, helm]
      · rw [hlm] at h
        replace h :
            (match (validateConfig schema cfg).1 with
              | Except.ok c => Except.ok (ε := JsErr) c
              | Except.error ev =>
                Except.error (if ev.isConfigErr then ev
                  else .configErr "Failed to load configuration" .LOAD_ERROR (some ev) [])) =
            .error e := h
        rcases hv : (validateConfig schema cfg).1 with ev | c
        · rw [hv] at h
          replace h : Except.error (ε := JsErr) (α := Cfg) (if ev.isConfigErr then ev
              else .configErr "Failed to load configuration" .LOAD_ERROR (some ev) []) =
              .error e := h
          injection h with h'
          have hev := validateConfig_err_no_merge schema cfg ev hv
          by_cases hic : ev.isConfigErr = true
          · rw [if_pos hic] at h'
            subst h'
            exact hev
          · rw [if_neg hic] at h'
            subst h'
            simp [JsErr.mentionsCode, hev]
        · rw [hv] at h
          exact Except.noConfusion h

/-- Claim C8: validation is not early-exit — when the merged document
violates the schema, `load` fails with VALIDATION_ERROR carrying the
complete violation list (every violated constraint, in schema order), and a
document violating exactly two independent constraints yields a violation
list with exactly two entries. -/
theorem load_validation_completeness (opts : Options) (ctx : Ctx) (fs : FS)
    (nodeEnv : Option String) (cache : Cache) (cs : List (String × (Cfg → Bool))) (m : Cfg)
    (hS : ctx.ssr = true) (hPr : ctx.hasProcess = true)
    (hlm : (loadAndMergeConfigs opts ctx fs (nodeEnv.getD opts.defaultEnv)).1 = .ok m)
    (hviol : violationsOf cs m ≠ []) :
    (load opts (.wellFormed cs) ctx fs nodeEnv cache).1 =
      .error (.configErr "Configuration validation failed" .VALIDATION_ERROR none
        (violationsOf cs m)) ∧
    violationsOf cs m = (cs.filter (fun c => !(c.2 m))).map Prod.fst ∧
    ((cs.filter (fun c => !(c.2 m))).length = 2 → (violationsOf cs m).length = 2) := by
  have hv : (validateConfig (.wellFormed cs) m).1 =
      .error (.configErr "Configuration validation failed" .VALIDATION_ERROR none
        (violationsOf cs m)) := by
    show (if violationsOf cs m = [] then Except.ok m
      else Except.error (JsErr.configErr "Configuration validation failed"
        ConfigErrorCode.VALIDATION_ERROR none (violationsOf cs m))) =
      Except.error (JsErr.configErr "Configuration validation failed"
        ConfigErrorCode.VALIDATION_ERROR none (violationsOf cs m))
    rw [if_neg hviol]
  refine ⟨?_, rfl, ?_⟩
  · simp only [load]
    rw [if_neg (by simp [hS]), if_neg (by simp [hPr]), hlm]
    show (match (validateConfig (.wellFormed cs) m).1 with
          | Except.ok c => Except.ok (ε := JsErr) c
          | Except.error ev =>
            Except.error (if ev.isConfigErr then ev
              else JsErr.configErr "Failed to load configuration"
                ConfigErrorCode.LOAD_ERROR (some ev) [])) =
        Except.error (JsErr.configErr "Configuration validation failed"
          ConfigErrorCode.VALIDATION_ERROR none (violationsOf cs m))
    rw [hv]
    simp [JsErr.isConfigErr]
  · intro h2
    simp [violationsOf, h2]

/-- Claim C2 (amended): `load`'s own catch rethrows any `ConfigurationError`
from the pipeline unchanged and wraps only non-`ConfigurationError` failures
as LOAD_ERROR; however a FILE_READ_ERROR raised while reading a file of an
existing directory does not reach the caller with its original tag —
`loadConfigFiles`' catch wraps it (like every non-ENOENT failure) into a
DIR_READ_ERROR carrying the original error as its payload. -/
theorem load_error_wrapping (opts : Options) (schema : SchemaModel) (ctx : Ctx)
    (fs : FS) (nodeEnv : Option String) (cache : Cache)
    (hS : ctx.ssr = true) (hPr : ctx.hasProcess = true) (hF : ctx.fsAvail = true)
    (hP : ctx.pathAvail = true) :
    (∀ e, (loadAndMergeConfigs opts ctx fs (nodeEnv.getD opts.defaultEnv)).1 = .error e →
        (e.isConfigErr = true → (load opts schema ctx fs nodeEnv cache).1 = .error e) ∧
        (e.isConfigErr = false → (load opts schema ctx fs nodeEnv cache).1 =
          .error (.configErr "Failed to load configuration" .LOAD_ERROR (some e) []))) ∧
    (∀ dirPath names f r,
        fs.dirs dirPath = .ok names →
        names.filter (fun n => strEndsWith n ".json") = [f] →
        fs.files (pathJoin dirPath f) = .readErr r →
        (JsErr.raw r).isError = true →
        (loadConfigFiles ctx fs dirPath).1 =
          .error (.configErr ("Failed to load config files from directory: " ++ dirPath)
            .DIR_READ_ERROR
            (some (.configErr ("Failed to load file: " ++ pathJoin dirPath f)
              .FILE_READ_ERROR (some (.raw r)) [])) [])) := by
  constructor
  · intro e hlm
    have hmain : (load opts schema ctx fs nodeEnv cache).1 =
        .error (if e.isConfigErr then e
          else .configErr "Failed to load configuration" .LOAD_ERROR (some e) []) := by
      simp only [load]
      rw [if_neg (by simp [hS]), if_neg (by simp [hPr]), hlm]
    constructor
    · intro hc
      rw [hmain, hc]
      simp
    · intro hc
      rw [hmain, hc]
      simp
  · intro dirPath names f r hd hfilter hfile hre
    have hlf : (loadFile ctx fs (pathJoin dirPath f)).1 =
        .error (.configErr ("Failed to load file: " ++ pathJoin dirPath f)
          .FILE_READ_ERROR (some (.raw r)) []) := by
      rw [loadFile]
      rw [if_neg (by simp [hS, hF])]
      rw [hfile]
      show (if (JsErr.raw r).isError then Except.error (JsErr.configErr
            ("Failed to load file: " ++ pathJoin dirPath f)
            ConfigErrorCode.FILE_READ_ERROR (some (JsErr.raw r)) [])
          else Except.error (JsErr.raw r)) = _
      rw [if_pos hre]
    rw [loadConfigFiles_ok_listing ctx fs dirPath names hS hF hP hd, hfilter]
    simp only [List.map_cons, List.map_nil, hlf]
    rw [firstErr]
    show dirCatch dirPath _ = _
    rw [dirCatch]
    rw [if_neg (by simp [JsErr.isError, JsErr.codeStr, ConfigErrorCode.toStr])]

theorem compileCount_append (a b : List Effect) :
    compileCount (a ++ b) = compileCount a + compileCount b := by
  simp [compileCount, List.filter_append]

theorem loadFile_no_compile (ctx : Ctx) (fs : FS) (p : String) :
    compileCount (loadFile ctx fs p).2 = 0 := by
  rw [loadFile]
  by_cases hg : (!ctx.ssr || !ctx.fsAvail) = true
  · rw [if_pos hg]
    rfl
  · rw [if_neg hg]
    rcases h : fs.files p with cfg | r | _ <;> rfl

theorem loadConfigFiles_no_compile (ctx : Ctx) (fs : FS) (d : String) :
    compileCount (loadConfigFiles ctx fs d).2 = 0 := by
  rw [loadConfigFiles]
  by_cases hg : (!ctx.ssr || !ctx.fsAvail || !ctx.pathAvail) = true
  · rw [if_pos hg]
    rfl
  · rw [if_neg hg]
    have hflat : ∀ l : List String,
        compileCount ((l.map (fun n => (loadFile ctx fs (pathJoin d n)).2)).flatten) = 0 := by
      intro l
      induction l with
      | nil => rfl
      | cons x xs ih =>
          rw [List.map_cons, List.flatten_cons, compileCount_append, ih,
            loadFile_no_compile]
    have hcons : ∀ xs : List Effect,
        compileCount (Effect.dirRead d :: xs) = compileCount xs := by
      intro xs
      simp [compileCount, List.filter_cons]
    split
    · rfl
    · next names heq =>
        show compileCount
          ((match firstErr ((names.filter (fun n => strEndsWith n ".json")).map
            (fun n => (loadFile ctx fs (pathJoin d n)).1)) with
            | some e => (dirCatch d e, Effect.dirRead d ::
            ((names.filter (fun n => strEndsWith n ".json")).map
              (fun n => (loadFile ctx fs (pathJoin d n)).2)).flatten)
            | none => (Except.ok ((okConfigs ((names.filter (fun n => strEndsWith n ".json")).map
            (fun n => (loadFile ctx fs (pathJoin d n)).1))).foldl mergeConfigs .nil),
                Effect.dirRead d ::
            ((names.filter (fun n => strEndsWith n ".json")).map
              (fun n => (loadFile ctx fs (pathJoin d n)).2)).flatten)).2) = 0
        split
        · rw [hcons]
          exact hflat _
        · rw [hcons]
          exact hflat _

theorem validateConfig_effects (schema : SchemaModel) (cfg : Cfg) :
    (validateConfig schema cfg).2 = [.compileSchema] := by
  cases schema <;> simp [validateConfig, compileSchema]

theorem loadAndMergeConfigs_no_compile (opts : Options) (ctx : Ctx) (fs : FS) (env : String) :
    compileCount (loadAndMergeConfigs opts ctx fs env).2 = 0 := by
  rw [loadAndMergeConfigs]
  by_cases hp : (!ctx.pathAvail) = true
  · rw [if_pos hp]
    rfl
  · rw [if_neg hp]
    show compileCount ((loadConfigFiles ctx fs (pathJoin opts.configDir "default")).2 ++
      (loadConfigFiles ctx fs (pathJoin opts.configDir env)).2) = 0
    rw [compileCount_append, loadConfigFiles_no_compile, loadConfigFiles_no_compile]

/-- Claim C3 (amended): the schema is compiled not at loader construction
(the constructor performs no compilation and succeeds for every schema,
malformed ones included) but inside `validateConfig` on each `load`
invocation — at most one compilation per `load` call; a malformed schema
therefore fails the first `load` that reaches validation, and on the server
path the compile error is wrapped as LOAD_ERROR, never INVALID_SCHEMA. -/
theorem schema_compiled_per_load (cd : Option String) (cb : Option Bool)
    (de : Option String) (ib : Option Bool) :
    (construct cd cb de ib).2 = [] ∧
    (∀ (opts : Options) (schema : SchemaModel) (ctx : Ctx) (fs : FS)
        (nodeEnv : Option String) (cache : Cache),
      compileCount (load opts schema ctx fs nodeEnv cache).2.2 ≤ 1) ∧
    (∀ (opts : Options) (ctx : Ctx) (fs : FS) (nodeEnv : Option String)
        (cache : Cache) (m : Cfg), ctx.ssr = true → ctx.hasProcess = true →
      (loadAndMergeConfigs opts ctx fs (nodeEnv.getD opts.defaultEnv)).1 = .ok m →
      (load opts .malformed ctx fs nodeEnv cache).1 =
        .error (.configErr "Failed to load configuration" .LOAD_ERROR
          (some (.raw (.plainError "ajv schema compilation failed"))) [])) := by
  refine ⟨rfl, ?_, ?_⟩
  · intro opts schema ctx fs nodeEnv cache
    simp only [load]
    by_cases hS : (!ctx.ssr) = true
    · rw [if_pos hS]
      show compileCount (validateConfig schema .nil).2 ≤ 1
      rw [validateConfig_effects]
      decide
    · rw [if_neg hS]
      by_cases hPr : (!ctx.hasProcess) = true
      · rw [if_pos hPr]
        show compileCount (validateConfig schema .nil).2 ≤ 1
        rw [validateConfig_effects]
        decide
      · rw [if_neg hPr]
        rcases hlm : (loadAndMergeConfigs opts ctx fs (nodeEnv.getD opts.defaultEnv)).1
          with e | cfg
        · show compileCount (loadAndMergeConfigs opts ctx fs (nodeEnv.getD opts.defaultEnv)).2 ≤ 1
          rw [loadAndMergeConfigs_no_compile]
          decide
        · show compileCount ((loadAndMergeConfigs opts ctx fs (nodeEnv.getD opts.defaultEnv)).2 ++
            (validateConfig schema cfg).2) ≤ 1
          rw [compileCount_append, loadAndMergeConfigs_no_compile, validateConfig_effects]
          decide
  · intro opts ctx fs nodeEnv cache m hS hPr hlm
    simp only [load]
    rw [if_neg (by simp [hS]), if_neg (by simp [hPr]), hlm]
    rfl

/-! ### Claim theorems about the pipeline -/

/-- Claim C6: if the directory does not exist (readdir fails with an ENOENT
error), directory aggregation returns the empty Partial Configuration and
is not an error; any other listing failure — an Error with a different
code, an Error without a code such as permission denied, or even a thrown
non-Error — produces an error tagged DIR_READ_ERROR wrapping the raw
failure. -/
theorem loadConfigFiles_dir_outcomes (ctx : Ctx) (fs : FS) (dirPath : String)
    (hssr : ctx.ssr = true) (hfs : ctx.fsAvail = true) (hpath : ctx.pathAvail = true) :
    (fs.dirs dirPath = .error (.node "ENOENT") →
        (loadConfigFiles ctx fs dirPath).1 = .ok .nil) ∧
    (∀ r : RawErr, fs.dirs dirPath = .error r → r ≠ .node "ENOENT" →
        (loadConfigFiles ctx fs dirPath).1 =
          .error (.configErr ("Failed to load config files from directory: " ++ dirPath)
            .DIR_READ_ERROR (some (.raw r)) [])) := by
  constructor
  · intro h
    simp [loadConfigFiles, hssr, hfs, hpath, h, dirCatch, JsErr.isError, JsErr.codeStr]
  · intro r h hne
    cases r with
    | node c =>
        have hc : c ≠ "ENOENT" := by
          intro hcc
          exact hne (by rw [hcc])
        simp [loadConfigFiles, hssr, hfs, hpath, h, dirCatch, JsErr.isError, JsErr.codeStr, hc]
    | plainError d =>
        simp [loadConfigFiles, hssr, hfs, hpath, h, dirCatch, JsErr.isError, JsErr.codeStr]
    | nonError =>
        simp [loadConfigFiles, hssr, hfs, hpath, h, dirCatch, JsErr.isError, JsErr.codeStr]

/-- Witness for `loadConfigFiles_dir_outcomes`: on a concrete server context
and a filesystem whose every directory listing fails with ENOENT, the
aggregation of `config/default` returns the empty configuration. -/
theorem loadConfigFiles_dir_outcomes_witness :
    (Ctx.mk true true true true).ssr = true ∧
    (loadConfigFiles ⟨true, true, true, true⟩
        ⟨fun _ => .error (.node "ENOENT"), fun _ => .parseErr⟩ "config/default").1 = .ok .nil :=
  ⟨rfl, (loadConfigFiles_dir_outcomes ⟨true, true, true, true⟩
    ⟨fun _ => .error (.node "ENOENT"), fun _ => .parseErr⟩ "config/default" rfl rfl rfl).1 rfl⟩

/-- Claim C7: whenever filesystem access is not permitted in the current
execution context (`isSSR()` is false), `load` performs zero directory
listings and zero file reads, validates the empty Partial Configuration
instead, and against a schema that the empty configuration satisfies (all
fields optional) it succeeds with the empty configuration without
throwing. -/
theorem load_context_guard (opts : Options) (schema : SchemaModel) (ctx : Ctx) (fs : FS)
    (nodeEnv : Option String) (cache : Cache) (h : ctx.ssr = false) :
    fsAccessCount (load opts schema ctx fs nodeEnv cache).2.2 = 0 ∧
    (load opts schema ctx fs nodeEnv cache).1 = (validateConfig schema .nil).1 ∧
    (∀ cs, schema = .wellFormed cs → violationsOf cs .nil = [] →
        (load opts schema ctx fs nodeEnv cache).1 = .ok .nil) := by
  refine ⟨?_, ?_, ?_⟩
  · simp [load, h, validateConfig_effects, fsAccessCount]
  · simp [load, h]
  · intro cs hcs hv
    subst hcs
    simp [load, h, validateConfig, compileSchema, hv]

/-- Witness for `load_context_guard`: in a concrete browser context, with an
all-optional one-constraint schema and a filesystem that would fail every
access, `load` succeeds with the empty configuration. -/
theorem load_context_guard_witness :
    (Ctx.mk false false false false).ssr = false ∧
    (load ⟨"config", false, "development", false⟩
        (.wellFormed [("anything", fun _ => true)]) ⟨false, false, false, false⟩
        ⟨fun _ => .error .nonError, fun _ => .parseErr⟩ none []).1 = .ok .nil :=
  ⟨rfl, (load_context_guard ⟨"config", false, "development", false⟩
      (.wellFormed [("anything", fun _ => true)]) ⟨false, false, false, false⟩
      ⟨fun _ => .error .nonError, fun _ => .parseErr⟩ none [] rfl).2.2
    [("anything", fun _ => true)] rfl rfl⟩

/-- Claim C1 is contradicted by the code: `load` never consults or populates
`configCache`. With caching enabled, a first `load` succeeds but stores
nothing (the returned cache is still empty), and a second `load` run with
the cache state produced by the first performs three filesystem accesses
(two directory listings and one file read) instead of returning from the
cache with none. -/
theorem load_ignores_cache :
    (load ⟨"config", true, "development", false⟩ (.wellFormed [])
        ⟨true, true, true, true⟩
        ⟨fun p => if p = "config/default" then .ok ["app.json"] else .error (.node "ENOENT"),
         fun p => if p = "config/default/app.json" then .ok (.cons "port" (.num 8080) .nil)
                  else .parseErr⟩ none []).1 = .ok (.cons "port" (.num 8080) .nil) ∧
    (load ⟨"config", true, "development", false⟩ (.wellFormed [])
        ⟨true, true, true, true⟩
        ⟨fun p => if p = "config/default" then .ok ["app.json"] else .error (.node "ENOENT"),
         fun p => if p = "config/default/app.json" then .ok (.cons "port" (.num 8080) .nil)
                  else .parseErr⟩ none []).2.1 = [] ∧
    fsAccessCount (load ⟨"config", true, "development", false⟩ (.wellFormed [])
        ⟨true, true, true, true⟩
        ⟨fun p => if p = "config/default" then .ok ["app.json"] else .error (.node "ENOENT"),
         fun p => if p = "config/default/app.json" then .ok (.cons "port" (.num 8080) .nil)
                  else .parseErr⟩ none
        ((load ⟨"config", true, "development", false⟩ (.wellFormed [])
          ⟨true, true, true, true⟩
          ⟨fun p => if p = "config/default" then .ok ["app.json"] else .error (.node "ENOENT"),
           fun p => if p = "config/default/app.json" then .ok (.cons "port" (.num 8080) .nil)
                    else .parseErr⟩ none []).2.1)).2.2 = 3 :=
  ⟨rfl, rfl, rfl⟩

/-- Counterexample to claim C2 as stated: over a filesystem whose
`config/default` listing succeeds with one JSON file whose read fails with
EACCES, the FILE_READ_ERROR produced for that file does not reach the
caller of `load` with its original tag — the caller receives a
DIR_READ_ERROR that wraps it, so the code of the error seen by the caller
is not FILE_READ_ERROR. -/
theorem file_error_retagged_cex :
    (load ⟨"config", false, "development", false⟩ (.wellFormed [])
        ⟨true, true, true, true⟩
        ⟨fun p => if p = "config/default" then .ok ["app.json"] else .error (.node "ENOENT"),
         fun _ => .readErr (.node "EACCES")⟩ none []).1
      = .error (.configErr "Failed to load config files from directory: config/default"
          .DIR_READ_ERROR
          (some (.configErr "Failed to load file: config/default/app.json"
            .FILE_READ_ERROR (some (.raw (.node "EACCES"))) [])) []) ∧
    errorCodeOf (load ⟨"config", false, "development", false⟩ (.wellFormed [])
        ⟨true, true, true, true⟩
        ⟨fun p => if p = "config/default" then .ok ["app.json"] else .error (.node "ENOENT"),
         fun _ => .readErr (.node "EACCES")⟩ none []).1
      ≠ some ConfigErrorCode.FILE_READ_ERROR :=
  ⟨rfl, by decide⟩

/-- Witness for `load_error_wrapping`: at a concrete server context and the
EACCES filesystem above, the directory aggregator returns the
DIR_READ_ERROR wrapping the file's FILE_READ_ERROR. -/
theorem load_error_wrapping_witness :
    (Ctx.mk true true true true).ssr = true ∧
    (loadConfigFiles ⟨true, true, true, true⟩
        ⟨fun p => if p = "config/default" then .ok ["app.json"] else .error (.node "ENOENT"),
         fun _ => .readErr (.node "EACCES")⟩ "config/default").1
      = .error (.configErr "Failed to load config files from directory: config/default"
          .DIR_READ_ERROR
          (some (.configErr "Failed to load file: config/default/app.json"
            .FILE_READ_ERROR (some (.raw (.node "EACCES"))) [])) []) :=
  ⟨rfl, (load_error_wrapping ⟨"config", false, "development", false⟩ (.wellFormed [])
      ⟨true, true, true, true⟩
      ⟨fun p => if p = "config/default" then .ok ["app.json"] else .error (.node "ENOENT"),
       fun _ => .readErr (.node "EACCES")⟩ none [] rfl rfl rfl rfl).2
    "config/default" ["app.json"] "app.json" (.node "EACCES") rfl rfl rfl rfl⟩

/-- Counterexample to claim C3 as stated: construction performs no schema
compilation at all (its effect trace is empty) and succeeds even for a
malformed schema; the compilation instead happens during `load` (one
compilation in this call), and the resulting failure is tagged LOAD_ERROR,
not INVALID_SCHEMA. -/
theorem construction_no_compile_cex :
    (construct none none none none).2 = [] ∧
    compileCount (load (construct none none none none).1 .malformed
      ⟨true, true, false, true⟩
      ⟨fun _ => .error (.node "ENOENT"), fun _ => .parseErr⟩ none []).2.2 = 1 ∧
    errorCodeOf (load (construct none none none none).1 .malformed
      ⟨true, true, false, true⟩
      ⟨fun _ => .error (.node "ENOENT"), fun _ => .parseErr⟩ none []).1
      = some ConfigErrorCode.LOAD_ERROR ∧
    errorCodeOf (load (construct none none none none).1 .malformed
      ⟨true, true, false, true⟩
      ⟨fun _ => .error (.node "ENOENT"), fun _ => .parseErr⟩ none []).1
      ≠ some ConfigErrorCode.INVALID_SCHEMA :=
  ⟨rfl, rfl, rfl, by decide⟩

/-- Witness for `schema_compiled_per_load`: at concrete options, a server
context without the `fs` module, and a malformed schema, `load` fails with
the LOAD_ERROR wrapping of the compile error. -/
theorem schema_compiled_per_load_witness :
    (Ctx.mk true true false true).ssr = true ∧
    (load ⟨"config", false, "development", false⟩ .malformed ⟨true, true, false, true⟩
        ⟨fun _ => .error (.node "ENOENT"), fun _ => .parseErr⟩ none []).1
      = .error (.configErr "Failed to load configuration" .LOAD_ERROR
          (some (.raw (.plainError "ajv schema compilation failed"))) []) :=
  ⟨rfl, (schema_compiled_per_load none none none none).2.2
    ⟨"config", false, "development", false⟩ ⟨true, true, false, true⟩
    ⟨fun _ => .error (.node "ENOENT"), fun _ => .parseErr⟩ none [] .nil rfl rfl rfl⟩

/-- Witness for `load_never_merge_error`: the concrete failing `load` above
returns a DIR_READ_ERROR, and by the theorem that error neither is nor
wraps a MERGE_ERROR. -/
theorem load_never_merge_error_witness :
    (load ⟨"config", false, "development", false⟩ (.wellFormed [])
        ⟨true, true, true, true⟩
        ⟨fun p => if p = "config/default" then .ok ["app.json"] else .error (.node "ENOENT"),
         fun _ => .readErr (.node "EACCES")⟩ none []).1
      = .error (.configErr "Failed to load config files from directory: config/default"
          .DIR_READ_ERROR
          (some (.configErr "Failed to load file: config/default/app.json"
            .FILE_READ_ERROR (some (.raw (.node "EACCES"))) [])) []) ∧
    JsErr.mentionsCode (.configErr "Failed to load config files from directory: config/default"
        .DIR_READ_ERROR
        (some (.configErr "Failed to load file: config/default/app.json"
          .FILE_READ_ERROR (some (.raw (.node "EACCES"))) [])) []) .MERGE_ERROR = false :=
  ⟨rfl, load_never_merge_error ⟨"config", false, "development", false⟩ (.wellFormed [])
    ⟨true, true, true, true⟩
    ⟨fun p => if p = "config/default" then .ok ["app.json"] else .error (.node "ENOENT"),
     fun _ => .readErr (.node "EACCES")⟩ none [] _ rfl⟩

/-- Witness for `load_validation_completeness`: a concrete schema with two
constraints (a required `port` and a required `name`), both violated by the
empty merged document, yields a VALIDATION_ERROR whose violation list has
exactly the two constraint names. -/
theorem load_validation_completeness_witness :
    violationsOf [("port-required", fun c : Cfg => (lookupVal c "port").isSome),
        ("name-required", fun c : Cfg => (lookupVal c "name").isSome)] .nil ≠ [] ∧
    (load ⟨"config", false, "development", false⟩
        (.wellFormed [("port-required", fun c : Cfg => (lookupVal c "port").isSome),
          ("name-required", fun c : Cfg => (lookupVal c "name").isSome)])
        ⟨true, true, false, true⟩
        ⟨fun _ => .error (.node "ENOENT"), fun _ => .parseErr⟩ none []).1
      = .error (.configErr "Configuration validation failed" .VALIDATION_ERROR none
          (violationsOf [("port-required", fun c : Cfg => (lookupVal c "port").isSome),
            ("name-required", fun c : Cfg => (lookupVal c "name").isSome)] .nil)) ∧
    (violationsOf [("port-required", fun c : Cfg => (lookupVal c "port").isSome),
        ("name-required", fun c : Cfg => (lookupVal c "name").isSome)] .nil).length = 2 :=
  ⟨by decide,
   (load_validation_completeness ⟨"config", false, "development", false⟩
      ⟨true, true, false, true⟩
      ⟨fun _ => .error (.node "ENOENT"), fun _ => .parseErr⟩ none []
      [("port-required", fun c : Cfg => (lookupVal c "port").isSome),
        ("name-required", fun c : Cfg => (lookupVal c "name").isSome)] .nil
      rfl rfl rfl (by decide)).1,
   (load_validation_completeness ⟨"config", false, "development", false⟩
      ⟨true, true, false, true⟩
      ⟨fun _ => .error (.node "ENOENT"), fun _ => .parseErr⟩ none []
      [("port-required", fun c : Cfg => (lookupVal c "port").isSome),
        ("name-required", fun c : Cfg => (lookupVal c "name").isSome)] .nil
      rfl rfl rfl (by decide)).2.2 (by decide)⟩

end ConfigLoader

/-! ### Claim theorems about the merge -/

/-- Claim C4: for all configuration objects A and B (B with JavaScript-legal,
duplicate-free keys) and every key k, the merged object's value at k is:
the recursive merge when both sides hold mapping nodes at k; otherwise B's
value when k is present in B with a non-`undefined` value; otherwise A's
value — so keys present only in the target are preserved unchanged. The
right-hand side `mergeSpecAt` is written from the spec's clause. -/
theorem mergeConfigs_key_semantics (A B : Cfg) (k : String) (hB : B.keys.Nodup) :
    lookupVal (mergeConfigs A B) k = mergeSpecAt A B k :=
  lookupVal_mergeConfigs A B k hB

/-- Witness for `mergeConfigs_key_semantics` at nested concrete objects that
exercise the recursive-merge arm. -/
theorem mergeConfigs_key_semantics_witness :
    (Cfg.cons "a" (.obj (.cons "x" (.num 2) .nil))
      (Cfg.cons "b" (.arr (.cons (.num 1) .nil)) .nil)).keys.Nodup ∧
    lookupVal
      (mergeConfigs
        (Cfg.cons "a" (.obj (.cons "x" (.num 1) (.cons "z" (.num 0) .nil)))
          (Cfg.cons "only" (.num 7) .nil))
        (Cfg.cons "a" (.obj (.cons "x" (.num 2) .nil))
          (Cfg.cons "b" (.arr (.cons (.num 1) .nil)) .nil)))
      "a"
    = mergeSpecAt
        (Cfg.cons "a" (.obj (.cons "x" (.num 1) (.cons "z" (.num 0) .nil)))
          (Cfg.cons "only" (.num 7) .nil))
        (Cfg.cons "a" (.obj (.cons "x" (.num 2) .nil))
          (Cfg.cons "b" (.arr (.cons (.num 1) .nil)) .nil))
        "a" :=
  ⟨by decide, mergeConfigs_key_semantics _ _ _ (by decide)⟩

/-- Claim C5: when the same key holds an array in both target and source,
the merge replaces the target array wholesale with the source array (never
concatenating or merging element-wise), and in particular
`merge({list:[1,2]}, {list:[3]})` equals `{list:[3]}`. -/
theorem mergeConfigs_array_replacement :
    (∀ (A B : Cfg) (k : String) (xs ys : ConfigList), B.keys.Nodup →
        lookupVal A k = some (.arr xs) → lookupVal B k = some (.arr ys) →
        lookupVal (mergeConfigs A B) k = some (.arr ys)) ∧
    mergeConfigs (.cons "list" (.arr (.cons (.num 1) (.cons (.num 2) .nil))) .nil)
        (.cons "list" (.arr (.cons (.num 3) .nil)) .nil)
      = .cons "list" (.arr (.cons (.num 3) .nil)) .nil := by
  constructor
  · intro A B k xs ys hB hA hBk
    rw [lookupVal_mergeConfigs A B k hB]
    unfold mergeSpecAt
    rw [hBk, hA]
  · rfl

/-- Witness for `mergeConfigs_array_replacement` at the spec's own example
`merge({list:[1,2]}, {list:[3]})`. -/
theorem mergeConfigs_array_replacement_witness :
    (Cfg.cons "list" (.arr (.cons (.num 3) .nil)) .nil).keys.Nodup ∧
    lookupVal
      (mergeConfigs (.cons "list" (.arr (.cons (.num 1) (.cons (.num 2) .nil))) .nil)
        (.cons "list" (.arr (.cons (.num 3) .nil)) .nil)) "list"
      = some (.arr (.cons (.num 3) .nil)) :=
  ⟨by decide, mergeConfigs_array_replacement.1 _ _ _ _ _ (by decide) rfl rfl⟩

/-- Claim C10: merging with the empty object on the right is the identity —
`mergeConfigs t {}` is structurally equal to `t` for every configuration
object `t` (the fold over `Object.entries({})` returns the shallow copy of
the target unchanged). -/
theorem mergeConfigs_right_identity (t : Cfg) : mergeConfigs t .nil = t := rfl

end Quickload
